import Mathlib

set_option maxRecDepth 8000

/-!
Verification of the lucky-seven Target-Driven Event Scheduler.

This file gives a shallow embedding, in Lean 4, of the core logic of the
repository (src/luckyseven): the goal calculator, the conversion-delay
distribution, the candidate filter (clean_clicks), the event materializer
(process_clicks), the stage-1 dispatch loop (post_click and
process_ready_clicks), and the duplicate-run suppression for periodic tasks
(should_skip_job and the task entry points).

Modelling conventions:
- Decimal and float arithmetic of the Python source is embedded as exact
  rational arithmetic over ℚ.
- Timestamps are integers (seconds).
- Randomness is made explicit: every sampled quantity (deviance factors,
  uniform draws, randint results, shuffles, generated sub1/sub2 strings) is
  a parameter of the embedded function, so that properties can be
  quantified over all draws.
- Database reads (existence checks, the ready-click query result) are
  parameters as well; database writes are returned values.
- A Python IndexError is modelled by returning none from the embedded
  function.
-/

namespace LuckySeven

/-! ## GoalCalculator (click_generator_utils.py, lines 79-297) -/

/-- Python Decimal quantize with ROUND_UP rounds away from zero. -/
def roundAwayFromZero (x : ℚ) : ℤ :=
  if 0 ≤ x then ⌈x⌉ else ⌊x⌋

/-- Embeds calculate_daily_revenue_goal (lines 79-92): payout_target / 0.8. -/
def calculate_daily_revenue_goal (payout_target : ℚ) : ℚ :=
  payout_target / (8 / 10)

/-- Embeds calculate_daily_revenue_runtime (lines 157-176); deviance_factor
stands for the sampled random.uniform(-deviance, deviance). -/
def calculate_daily_revenue_runtime (daily_revenue_goal deviance_factor : ℚ) : ℚ :=
  daily_revenue_goal * (1 + deviance_factor)

/-- Embeds calculate_daily_conversions_needed (lines 179-199). -/
def calculate_daily_conversions_needed (daily_revenue_goal average_cost_per_conversion : ℚ) : ℤ :=
  if average_cost_per_conversion ≤ 0 then 0
  else roundAwayFromZero (daily_revenue_goal / average_cost_per_conversion)

/-- Embeds calculate_conversion_ratio_runtime (lines 202-225); deviance_factor
stands for the sampled random.uniform(-deviance, deviance).  The source
applies the deviance multiplier and then replaces the result by 0.01 only
when it is strictly negative. -/
def calculate_conversion_ratio_runtime (conversion_ratio_target deviance_factor : ℚ) : ℚ :=
  if conversion_ratio_target * (1 + deviance_factor) < 0 then 1 / 100
  else conversion_ratio_target * (1 + deviance_factor)

/-- Embeds calculate_daily_clicks_needed (lines 228-253). -/
def calculate_daily_clicks_needed (daily_conversions_needed : ℤ)
    (conversion_ratio_runtime : ℚ) : ℤ :=
  if conversion_ratio_runtime ≤ 0 then 0
  else roundAwayFromZero ((daily_conversions_needed : ℚ) / (conversion_ratio_runtime / 100))

/-- Embeds the numeric pipeline of process_affiliate_click_generation
(lines 256-297).  The average cost per conversion (an external CSV lookup)
and the two sampled deviance factors are parameters.  Returns
(daily_revenue_goal, daily_revenue_runtime, daily_conversions_needed,
conversion_ratio_runtime, daily_clicks_needed). -/
def process_affiliate_click_generation (payout_target conversion_ratio_target : ℚ)
    (revenue_deviance_factor ratio_deviance_factor average_cost_per_conversion : ℚ) :
    ℚ × ℚ × ℤ × ℚ × ℤ :=
  let daily_revenue_goal := calculate_daily_revenue_goal payout_target
  let daily_revenue_runtime :=
    calculate_daily_revenue_runtime daily_revenue_goal revenue_deviance_factor
  let daily_conversions_needed :=
    calculate_daily_conversions_needed daily_revenue_runtime average_cost_per_conversion
  let conversion_ratio_runtime :=
    calculate_conversion_ratio_runtime conversion_ratio_target ratio_deviance_factor
  let daily_clicks_needed :=
    calculate_daily_clicks_needed daily_conversions_needed conversion_ratio_runtime
  (daily_revenue_goal, daily_revenue_runtime, daily_conversions_needed,
    conversion_ratio_runtime, daily_clicks_needed)

/-- Embeds the hourly quota computation of process_clicks (line 483):
daily_clicks_needed // 24. -/
def hourly_clicks_needed (daily_clicks_needed : ℕ) : ℕ :=
  daily_clicks_needed / 24

/-! ## Conversion-delay distribution (click_generator_utils.py, lines 22-54) -/

/-- Embeds CONVERSION_DELAY_DISTRIBUTION: (probability, min_seconds,
max_seconds) per bucket. -/
def CONVERSION_DELAY_DISTRIBUTION : List (ℚ × ℕ × ℕ) :=
  [(15 / 100, 30, 40), (18 / 100, 40, 50), (20 / 100, 50, 60), (15 / 100, 60, 70),
   (12 / 100, 70, 80), (10 / 100, 80, 90), (8 / 100, 90, 100), (6 / 100, 100, 110),
   (5 / 100, 110, 120), (4 / 100, 120, 130), (3 / 100, 130, 140), (2 / 100, 140, 150)]

/-- Embeds the cumulative-probability scan of generate_conversion_delay
(lines 45-51): accumulate bucket weights, return the first bucket whose
cumulative weight reaches the draw. -/
def pickBucket (rand : ℚ) : ℚ → List (ℚ × ℕ × ℕ) → Option (ℕ × ℕ)
  | _, [] => none
  | cumulative_prob, (prob, min_seconds, max_seconds) :: rest =>
    if rand ≤ cumulative_prob + prob then some (min_seconds, max_seconds)
    else pickBucket rand (cumulative_prob + prob) rest

/-- Embeds generate_conversion_delay (lines 38-54).  The uniform draw rand
(random.random, in the unit interval) and the randint sampler are
parameters; the fallback after the loop returns randint 140 150. -/
def generate_conversion_delay (rand : ℚ) (randint : ℕ → ℕ → ℕ) : ℕ :=
  match pickBucket rand 0 CONVERSION_DELAY_DISTRIBUTION with
  | some (min_seconds, max_seconds) => randint min_seconds max_seconds
  | none => randint 140 150

/-- Total weight of a bucket list. -/
def sumProbs (l : List (ℚ × ℕ × ℕ)) : ℚ :=
  (l.map fun x => x.1).sum

/-! ## CandidateFilter (click_generator_utils.py, lines 416-466) -/

/-- Raw candidate record as read from the external click source.  Absent
user_ip is modelled by the empty string (falsy in the source); the other
fields are read with the defaults used by the source. -/
structure RawClick where
  user_ip : String
  is_unique : Int
  error_code : Int
  is_test_mode : Bool
  is_mobile : Bool
  is_proxy : Bool
  is_robot : Bool
  is_filter : Bool
  forensiq_score : ℚ
  http_accept_language : String
  http_user_agent : String
  deriving DecidableEq

/-- Embeds the first skip condition of clean_clicks (line 436): missing IP,
IP already seen in this batch, or an IP containing the character x. -/
def bad_ip (seen : List String) (ip : String) : Bool :=
  ip == "" || seen.contains ip || ip.contains 'x'

/-- Embeds the quality skip condition of clean_clicks (lines 445-452). -/
def quality_fail (click : RawClick) : Bool :=
  (click.is_unique == 0) || !(click.error_code == 0) || click.is_test_mode ||
    click.is_mobile || click.is_proxy || click.is_robot || click.is_filter ||
    decide (50 < click.forensiq_score)

/-- Loop of clean_clicks (lines 429-463), with the set of already-seen IPs
made explicit and the persisted-store existence check passed as a
predicate. -/
def clean_go (existsInDb : String → Bool) : List RawClick → List String → List RawClick
  | [], _ => []
  | click :: rest, seen =>
    if bad_ip seen click.user_ip then clean_go existsInDb rest seen
    else if quality_fail click then clean_go existsInDb rest seen
    else if existsInDb click.user_ip then clean_go existsInDb rest seen
    else click :: clean_go existsInDb rest (click.user_ip :: seen)

/-- Embeds clean_clicks (lines 416-466). -/
def clean_clicks (existsInDb : String → Bool) (clicks : List RawClick) : List RawClick :=
  clean_go existsInDb clicks []

/-! ## EventMaterializer (click_generator_utils.py, lines 469-544) -/

/-- Fields of the Target used when building events. -/
structure Affiliate where
  affiliate_id : String
  affiliate_encoded_value : String
  deriving DecidableEq

/-- Processed click dictionary built by process_clicks (lines 503-524). -/
structure ProcessedClick where
  ip_address : String
  language : String
  user_agent : String
  affiliate_id : String
  affiliate_encoded_value : String
  sub1 : String
  sub2 : String
  to_process : Bool
  to_process_datetime : ℤ
  to_convert : Bool
  to_convert_datetime : Option ℤ
  deriving DecidableEq

/-- One iteration of the build loop of process_clicks (lines 492-526):
random_seconds is the sampled random.randint(0, 3600). -/
def buildClick (affiliate : Affiliate) (now : ℤ) (sub1 sub2 : String)
    (random_seconds : ℕ) (click : RawClick) : ProcessedClick :=
  { ip_address := click.user_ip
    language := click.http_accept_language
    user_agent := click.http_user_agent
    affiliate_id := affiliate.affiliate_id
    affiliate_encoded_value := affiliate.affiliate_encoded_value
    sub1 := sub1
    sub2 := sub2
    to_process := true
    to_process_datetime := now + (random_seconds : ℤ)
    to_convert := false
    to_convert_datetime := none }

/-- Build loop of process_clicks over the truncated candidate list; the
index threads the per-iteration random draws. -/
def buildClicks (affiliate : Affiliate) (now : ℤ) (sub1s sub2s : ℕ → String)
    (procSecs : ℕ → ℕ) : ℕ → List RawClick → List ProcessedClick
  | _, [] => []
  | i, click :: rest =>
    buildClick affiliate now (sub1s i) (sub2s i) (procSecs i) click ::
      buildClicks affiliate now sub1s sub2s procSecs (i + 1) rest

/-- Python int() truncates toward zero. -/
def truncToZero (x : ℚ) : ℤ :=
  if 0 ≤ x then ⌊x⌋ else ⌈x⌉

/-- Embeds line 530: conversions_needed = int(len(processed_clicks) *
conversion_rate). -/
def conversions_needed_count (selected_count : ℕ) (conversion_ratio_runtime : ℚ) : ℤ :=
  truncToZero ((selected_count : ℚ) * (conversion_ratio_runtime / 100))

/-- Marking loop of process_clicks (lines 536-541): set to_convert on the
first n clicks of the shuffled list, with a sampled conversion delay added
to the stage-1 time. -/
def markConversions (delays : ℕ → ℕ) : ℕ → ℕ → List ProcessedClick → List ProcessedClick
  | _, 0, processed_clicks => processed_clicks
  | _, _ + 1, [] => []
  | i, n + 1, click :: rest =>
    { click with
        to_convert := true
        to_convert_datetime := some (click.to_process_datetime + (delays i : ℤ)) } ::
      markConversions delays (i + 1) n rest

/-- Embeds process_clicks (lines 469-544).  The shuffle, the sub1/sub2
generator outputs, the stage-1 scheduling draws and the conversion-delay
draws are parameters.  Returns none exactly when the Python marking loop
would index past the end of the list (conversions_needed greater than the
number of selected clicks). -/
def process_clicks (now : ℤ) (sub1s sub2s : ℕ → String) (procSecs : ℕ → ℕ)
    (shuffle : List ProcessedClick → List ProcessedClick) (delays : ℕ → ℕ)
    (filtered_clicks : List RawClick) (daily_clicks_needed : ℕ) (affiliate : Affiliate)
    (conversion_ratio_runtime : ℚ) : Option (List ProcessedClick) :=
  let clicks_to_process := filtered_clicks.take (hourly_clicks_needed daily_clicks_needed)
  let processed_clicks := buildClicks affiliate now sub1s sub2s procSecs 0 clicks_to_process
  let n := (conversions_needed_count processed_clicks.length conversion_ratio_runtime).toNat
  if n ≤ (shuffle processed_clicks).length then
    some (markConversions delays 0 n (shuffle processed_clicks))
  else none

/-! ## LifecycleDispatcher, stage 1 (click_processor_utils.py, lines 17-125) -/

/-- Outcome of the external process-endpoint call made by post_click: a
parsed transaction id, a response whose body fails to parse, or a raised
request error. -/
inductive EndpointResult where
  | ok (transaction_id : String)
  | parseFailure
  | callFailure (message : String)
  deriving DecidableEq

/-- Embeds post_click (lines 17-74): a parse failure leaves transaction_id
empty, and the outer handler catches every raised error and returns the
empty string. -/
def post_click : EndpointResult → String
  | .ok transaction_id => transaction_id
  | .parseFailure => ""
  | .callFailure _ => ""

/-- Persisted Click row, restricted to the fields touched by the stage-1
dispatch loop. -/
structure ClickRow where
  id : ℕ
  transaction_id : String
  to_process : Bool
  to_process_datetime : ℤ
  is_processed : Bool
  is_processed_datetime : Option ℤ
  deriving DecidableEq

/-- Embeds the loop of process_ready_clicks (lines 100-122).  Each ready
click is paired with the outcome of its endpoint call and a flag telling
whether the subsequent save succeeds; a failing save raises inside the
per-click try block, so that click row stays unchanged and the loop
continues.  Returns the updated rows and processed_count. -/
def process_ready_clicks (now : ℤ) :
    List (ClickRow × EndpointResult × Bool) → List ClickRow × ℕ
  | [] => ([], 0)
  | (click, result, save_ok) :: rest =>
    let updated :=
      if save_ok then
        ({ click with
            transaction_id := post_click result
            is_processed := true
            is_processed_datetime := some now }, 1)
      else (click, 0)
    let tail := process_ready_clicks now rest
    (updated.1 :: tail.1, updated.2 + tail.2)

/-! ## RunDeduplicator (jobs_utils.py, tasks.py) -/

/-- RunRecord (the Job model): task name, status, start time. -/
structure Job where
  task_name : String
  status : String
  started_at : ℤ
  deriving DecidableEq

/-- Embeds should_skip_job (jobs_utils.py, lines 9-35): true when some job
with the same task name started at or after now minus the window. -/
def should_skip_job (now : ℤ) (jobs : List Job) (task_name : String)
    (time_window_seconds : ℤ) : Bool :=
  jobs.any fun job =>
    job.task_name == task_name && decide (now - time_window_seconds ≤ job.started_at)

/-- Embeds the RunRecord-creation prefix of tasks.click_processor
(tasks.py, lines 105-120): check should_skip_job, then create the running
Job.  The body work and the final status update are not modelled. -/
def click_processor_entry (now : ℤ) (jobs : List Job) : List Job :=
  if should_skip_job now jobs "click_processor" 20 then jobs
  else jobs ++ [{ task_name := "click_processor", status := "running", started_at := now }]

/-- Embeds the RunRecord-creation prefix of tasks.conversion_processor
(tasks.py, lines 138-153). -/
def conversion_processor_entry (now : ℤ) (jobs : List Job) : List Job :=
  if should_skip_job now jobs "conversion_processor" 20 then jobs
  else jobs ++ [{ task_name := "conversion_processor", status := "running", started_at := now }]

/-- Embeds the RunRecord-creation prefix of tasks.click_generator
(tasks.py, lines 19-29): the Job is created unconditionally, with no
should_skip_job check. -/
def click_generator_entry (now : ℤ) (jobs : List Job) (affiliate_id : String) : List Job :=
  jobs ++ [{ task_name := "click_generator_" ++ affiliate_id, status := "running",
             started_at := now }]

/-! ## Concrete instances used by witnesses and counterexamples -/

/-- Candidate record passing every quality check. -/
def exRawClick : RawClick :=
  { user_ip := "8.8.8.8"
    is_unique := 1
    error_code := 0
    is_test_mode := false
    is_mobile := false
    is_proxy := false
    is_robot := false
    is_filter := false
    forensiq_score := 10
    http_accept_language := "en-US"
    http_user_agent := "Mozilla" }

/-- Second candidate record with a distinct address. -/
def exRawClick2 : RawClick :=
  { exRawClick with user_ip := "9.9.9.9" }

/-- Target instance for concrete runs. -/
def exAffiliate : Affiliate :=
  { affiliate_id := "A1", affiliate_encoded_value := "32L4XJL" }

/-- Empty persisted-store existence check. -/
def dbNone (_ : String) : Bool := false

/-- Ready click row before dispatch. -/
def exClickRow : ClickRow :=
  { id := 1, transaction_id := "", to_process := true, to_process_datetime := 0,
    is_processed := false, is_processed_datetime := none }

/-- Job table holding one click_generator run started 10 seconds before
the reference time 110. -/
def exJobs : List Job :=
  [{ task_name := "click_generator_A1", status := "running", started_at := 100 }]

/-- Job table holding one click_processor run started 10 seconds before
the reference time 110. -/
def exJobsCP : List Job :=
  [{ task_name := "click_processor", status := "running", started_at := 100 }]

/-! ## Helper lemmas -/

theorem pickBucket_mem (rand : ℚ) :
    ∀ (l : List (ℚ × ℕ × ℕ)) (acc : ℚ) (lo hi : ℕ),
      pickBucket rand acc l = some (lo, hi) → ∃ p, (p, lo, hi) ∈ l := by
  intro l
  induction l with
  | nil => intro acc lo hi h; simp [pickBucket] at h
  | cons x rest ih =>
    intro acc lo hi h
    obtain ⟨p, mn, mx⟩ := x
    by_cases hc : rand ≤ acc + p
    · rw [pickBucket, if_pos hc] at h
      obtain ⟨h1, h2⟩ := Prod.mk.injEq .. ▸ Option.some.inj h
      exact ⟨p, by simp [h1, h2]⟩
    · rw [pickBucket, if_neg hc] at h
      obtain ⟨q, hq⟩ := ih _ _ _ h
      exact ⟨q, List.mem_cons_of_mem _ hq⟩

theorem pickBucket_eq_none (rand : ℚ) :
    ∀ (l : List (ℚ × ℕ × ℕ)) (acc : ℚ), l ≠ [] →
      pickBucket rand acc l = none → acc + sumProbs l < rand := by
  intro l
  induction l with
  | nil => intro acc hne _; exact absurd rfl hne
  | cons x rest ih =>
    intro acc _ h
    obtain ⟨p, mn, mx⟩ := x
    by_cases hc : rand ≤ acc + p
    · rw [pickBucket, if_pos hc] at h; exact absurd h (by simp)
    · rw [pickBucket, if_neg hc] at h
      push_neg at hc
      cases rest with
      | nil => simpa [sumProbs] using hc
      | cons y t =>
        have := ih (acc + p) (by simp) h
        simp only [sumProbs, List.map_cons, List.sum_cons] at this ⊢
        linarith

/-! ## Claim theorems: GoalCalculator -/

/-- C4: calculate_daily_conversions_needed returns 0 whenever the average
cost per conversion is nonpositive, and calculate_daily_clicks_needed
returns 0 whenever the runtime conversion ratio is nonpositive; both
division guards return instead of raising. -/
theorem goal_calculator_zero_guards :
    (∀ daily_revenue_goal average_cost_per_conversion : ℚ,
      average_cost_per_conversion ≤ 0 →
        calculate_daily_conversions_needed daily_revenue_goal average_cost_per_conversion = 0) ∧
    (∀ (daily_conversions_needed : ℤ) (conversion_ratio_runtime : ℚ),
      conversion_ratio_runtime ≤ 0 →
        calculate_daily_clicks_needed daily_conversions_needed conversion_ratio_runtime = 0) := by
  constructor
  · intro g a h
    simp [calculate_daily_conversions_needed, h]
  · intro n r h
    simp [calculate_daily_clicks_needed, h]

/-- Witness for C4: both guards evaluated at a concrete nonpositive input. -/
theorem goal_calculator_zero_guards_witness :
    calculate_daily_conversions_needed 1000 0 = 0 ∧
    calculate_daily_clicks_needed 100 0 = 0 :=
  ⟨goal_calculator_zero_guards.1 1000 0 (by decide),
   goal_calculator_zero_guards.2 100 0 (by decide)⟩

/-- C5: for payout target 800, ratio target 2, both deviance factors 0 and
average cost 10, the pipeline yields revenue goal 1000, runtime revenue
1000, 100 conversions needed, runtime ratio 2 and 5000 clicks needed, and
the resulting hourly quota is 208. -/
theorem end_to_end_goal_scenario :
    process_affiliate_click_generation 800 2 0 0 10 = (1000, 1000, 100, 2, 5000) ∧
    hourly_clicks_needed 5000 = 208 := by
  constructor
  · with_unfolding_all decide
  · decide

/-- C6 (amended): calculate_conversion_ratio_runtime replaces the deviated
ratio by 0.01 exactly when that value is strictly negative, and its result
is always nonnegative; a deviated value of exactly 0 is returned as 0. -/
theorem conversion_ratio_runtime_floor_nonneg (conversion_ratio_target deviance_factor : ℚ) :
    (conversion_ratio_target * (1 + deviance_factor) < 0 →
      calculate_conversion_ratio_runtime conversion_ratio_target deviance_factor = 1 / 100) ∧
    0 ≤ calculate_conversion_ratio_runtime conversion_ratio_target deviance_factor := by
  constructor
  · intro h
    simp [calculate_conversion_ratio_runtime, h]
  · rw [calculate_conversion_ratio_runtime]
    split_ifs with h
    · norm_num
    · exact not_lt.mp h

/-- Witness for C6: at target 2 and sampled deviance factor -2 the deviated
value is negative, so the floor applies and the result is 0.01. -/
theorem conversion_ratio_runtime_floor_nonneg_witness :
    calculate_conversion_ratio_runtime 2 (-2) = 1 / 100 ∧
    0 ≤ calculate_conversion_ratio_runtime 2 (-2) :=
  ⟨(conversion_ratio_runtime_floor_nonneg 2 (-2)).1 (by with_unfolding_all decide),
   (conversion_ratio_runtime_floor_nonneg 2 (-2)).2⟩

/-- Counterexample to C6 as stated: at target 2 and sampled deviance factor
-1 the deviated ratio is exactly 0, which is nonpositive, yet the function
returns 0 rather than the minimum 0.01, so the result is not strictly
positive. -/
theorem conversion_ratio_runtime_zero_cex :
    (2 * (1 + (-1)) : ℚ) ≤ 0 ∧
    calculate_conversion_ratio_runtime 2 (-1) = 0 ∧
    calculate_conversion_ratio_runtime 2 (-1) ≠ 1 / 100 ∧
    ¬ 0 < calculate_conversion_ratio_runtime 2 (-1) := by
  refine ⟨by with_unfolding_all decide, ?_, ?_, ?_⟩ <;>
    with_unfolding_all decide

/-! ## Claim theorems: conversion-delay distribution -/

/-- C7: whatever the uniform draw and for any randint sampler that stays
inside its requested closed range, generate_conversion_delay returns an
integer in the closed range from 30 to 150. -/
theorem generate_conversion_delay_range (rand : ℚ) (randint : ℕ → ℕ → ℕ)
    (hri : ∀ a b, a ≤ b → a ≤ randint a b ∧ randint a b ≤ b) :
    30 ≤ generate_conversion_delay rand randint ∧
      generate_conversion_delay rand randint ≤ 150 := by
  have key : ∀ lo hi, 30 ≤ lo → hi ≤ 150 → lo ≤ hi →
      30 ≤ randint lo hi ∧ randint lo hi ≤ 150 := fun lo hi h1 h2 h3 =>
    ⟨le_trans h1 (hri lo hi h3).1, le_trans (hri lo hi h3).2 h2⟩
  cases hpb : pickBucket rand 0 CONVERSION_DELAY_DISTRIBUTION with
  | none =>
    simp only [generate_conversion_delay, hpb]
    exact key 140 150 (by decide) (by decide) (by decide)
  | some b =>
    obtain ⟨lo, hi⟩ := b
    obtain ⟨p, hmem⟩ := pickBucket_mem rand _ _ _ _ hpb
    have hb : ∀ x ∈ CONVERSION_DELAY_DISTRIBUTION,
        30 ≤ x.2.1 ∧ x.2.2 ≤ 150 ∧ x.2.1 ≤ x.2.2 := by decide
    obtain ⟨h1, h2, h3⟩ := hb _ hmem
    simp only [generate_conversion_delay, hpb]
    exact key lo hi h1 h2 h3

/-- Witness for C7: a concrete draw with the sampler returning the lower
bound of the selected bucket. -/
theorem generate_conversion_delay_range_witness :
    30 ≤ generate_conversion_delay 0 (fun a _ => a) ∧
      generate_conversion_delay 0 (fun a _ => a) ≤ 150 :=
  generate_conversion_delay_range 0 (fun a _ => a) (fun a b h => ⟨Nat.le_refl a, h⟩)

/-- C10: the cumulative weights pass 1 within the first eight buckets, so
for every draw in the unit interval the scan selects a bucket and the
fallback after the loop is unreachable: the returned delay always comes
from the selected bucket. -/
theorem pickBucket_total_on_unit_interval (rand : ℚ) (h0 : 0 ≤ rand) (h1 : rand < 1) :
    1 < sumProbs (CONVERSION_DELAY_DISTRIBUTION.take 8) ∧
    ∃ lo hi, pickBucket rand 0 CONVERSION_DELAY_DISTRIBUTION = some (lo, hi) ∧
      ∀ randint : ℕ → ℕ → ℕ, generate_conversion_delay rand randint = randint lo hi := by
  constructor
  · norm_num [sumProbs, CONVERSION_DELAY_DISTRIBUTION]
  · cases hpb : pickBucket rand 0 CONVERSION_DELAY_DISTRIBUTION with
    | none =>
      have hlt := pickBucket_eq_none rand CONVERSION_DELAY_DISTRIBUTION 0
        (by simp [CONVERSION_DELAY_DISTRIBUTION]) hpb
      have hs : sumProbs CONVERSION_DELAY_DISTRIBUTION = 59 / 50 := by
        norm_num [sumProbs, CONVERSION_DELAY_DISTRIBUTION]
      rw [hs] at hlt
      linarith
    | some b =>
      obtain ⟨lo, hi⟩ := b
      exact ⟨lo, hi, rfl, fun randint => by simp only [generate_conversion_delay, hpb]⟩

/-- Witness for C10: the draw 0 lies in the unit interval and selects the
first bucket. -/
theorem pickBucket_total_on_unit_interval_witness :
    1 < sumProbs (CONVERSION_DELAY_DISTRIBUTION.take 8) ∧
    ∃ lo hi, pickBucket 0 0 CONVERSION_DELAY_DISTRIBUTION = some (lo, hi) ∧
      ∀ randint : ℕ → ℕ → ℕ, generate_conversion_delay 0 randint = randint lo hi :=
  pickBucket_total_on_unit_interval 0 (by decide) (by decide)

/-! ## Claim theorems: CandidateFilter -/

theorem clean_go_ip_not_seen (existsInDb : String → Bool) :
    ∀ (l : List RawClick) (seen : List String) (c : RawClick),
      c ∈ clean_go existsInDb l seen → c.user_ip ∉ seen := by
  intro l
  induction l with
  | nil => intro seen c h; simp [clean_go] at h
  | cons click rest ih =>
    intro seen c h
    rw [clean_go] at h
    split_ifs at h with h1 h2 h3
    · exact ih seen c h
    · exact ih seen c h
    · exact ih seen c h
    · rcases List.mem_cons.mp h with rfl | hmem
      · intro habs
        apply h1
        simp only [bad_ip, Bool.or_eq_true]
        exact Or.inl (Or.inr (List.elem_eq_true_of_mem habs))
      · have := ih _ c hmem
        exact fun habs => this (List.mem_cons_of_mem _ habs)

theorem clean_go_pairwise (existsInDb : String → Bool) :
    ∀ (l : List RawClick) (seen : List String),
      (clean_go existsInDb l seen).Pairwise fun a b => a.user_ip ≠ b.user_ip := by
  intro l
  induction l with
  | nil => intro seen; simp [clean_go]
  | cons click rest ih =>
    intro seen
    rw [clean_go]
    split_ifs with h1 h2 h3
    · exact ih seen
    · exact ih seen
    · exact ih seen
    · refine List.pairwise_cons.mpr ⟨fun b hb => ?_, ih _⟩
      have := clean_go_ip_not_seen existsInDb rest _ b hb
      exact fun habs => this (habs ▸ List.mem_cons_self _ _)

theorem clean_go_quality (existsInDb : String → Bool) :
    ∀ (l : List RawClick) (seen : List String) (c : RawClick),
      c ∈ clean_go existsInDb l seen → quality_fail c = false := by
  intro l
  induction l with
  | nil => intro seen c h; simp [clean_go] at h
  | cons click rest ih =>
    intro seen c h
    rw [clean_go] at h
    split_ifs at h with h1 h2 h3
    · exact ih seen c h
    · exact ih seen c h
    · exact ih seen c h
    · rcases List.mem_cons.mp h with rfl | hmem
      · exact Bool.of_not_eq_true h2
      · exact ih _ c hmem

/-- C3: clean_clicks never outputs two records with the same address, and
every output record passes all quality predicates: a truthy uniqueness
flag, error code zero, not test mode, not mobile, not proxy, not robot,
not filtered, and fraud score at most 50. -/
theorem clean_clicks_unique_and_quality (existsInDb : String → Bool)
    (clicks : List RawClick) :
    ((clean_clicks existsInDb clicks).Pairwise fun a b => a.user_ip ≠ b.user_ip) ∧
    ∀ c ∈ clean_clicks existsInDb clicks,
      c.is_unique ≠ 0 ∧ c.error_code = 0 ∧ c.is_test_mode = false ∧
      c.is_mobile = false ∧ c.is_proxy = false ∧ c.is_robot = false ∧
      c.is_filter = false ∧ c.forensiq_score ≤ 50 := by
  refine ⟨clean_go_pairwise existsInDb clicks [], fun c hc => ?_⟩
  have hq := clean_go_quality existsInDb clicks [] c hc
  simp only [quality_fail, Bool.or_eq_false_iff, Bool.not_eq_false',
    beq_eq_false_iff_ne, ne_eq, beq_iff_eq, decide_eq_false_iff_not, not_lt] at hq
  obtain ⟨⟨⟨⟨⟨⟨⟨hu, he⟩, ht⟩, hm⟩, hp⟩, hr⟩, hf⟩, hs⟩ := hq
  exact ⟨hu, he, ht, hm, hp, hr, hf, hs⟩

/-- Witness for C3: a single clean candidate passes the filter and the
theorem applies to it. -/
theorem clean_clicks_unique_and_quality_witness :
    ((clean_clicks dbNone [exRawClick]).Pairwise fun a b => a.user_ip ≠ b.user_ip) ∧
    (exRawClick.is_unique ≠ 0 ∧ exRawClick.error_code = 0 ∧
      exRawClick.is_test_mode = false ∧ exRawClick.is_mobile = false ∧
      exRawClick.is_proxy = false ∧ exRawClick.is_robot = false ∧
      exRawClick.is_filter = false ∧ exRawClick.forensiq_score ≤ 50) :=
  ⟨(clean_clicks_unique_and_quality dbNone [exRawClick]).1,
   (clean_clicks_unique_and_quality dbNone [exRawClick]).2 exRawClick
     (by with_unfolding_all decide)⟩

/-! ## Claim theorems: EventMaterializer -/

theorem buildClicks_length (affiliate : Affiliate) (now : ℤ) (sub1s sub2s : ℕ → String)
    (procSecs : ℕ → ℕ) :
    ∀ (l : List RawClick) (i : ℕ),
      (buildClicks affiliate now sub1s sub2s procSecs i l).length = l.length := by
  intro l
  induction l with
  | nil => intro i; rfl
  | cons click rest ih => intro i; simp [buildClicks, ih]

theorem buildClicks_map_ip (affiliate : Affiliate) (now : ℤ) (sub1s sub2s : ℕ → String)
    (procSecs : ℕ → ℕ) :
    ∀ (l : List RawClick) (i : ℕ),
      (buildClicks affiliate now sub1s sub2s procSecs i l).map (fun c => c.ip_address) =
        l.map fun c => c.user_ip := by
  intro l
  induction l with
  | nil => intro i; rfl
  | cons click rest ih => intro i; simp [buildClicks, buildClick, ih]

theorem buildClicks_mem (affiliate : Affiliate) (now : ℤ) (sub1s sub2s : ℕ → String)
    (procSecs : ℕ → ℕ) :
    ∀ (l : List RawClick) (i : ℕ) (c : ProcessedClick),
      c ∈ buildClicks affiliate now sub1s sub2s procSecs i l →
        c.to_process = true ∧ c.to_convert = false ∧
          ∃ j, c.to_process_datetime = now + (procSecs j : ℤ) := by
  intro l
  induction l with
  | nil => intro i c h; simp [buildClicks] at h
  | cons click rest ih =>
    intro i c h
    rcases List.mem_cons.mp h with rfl | hmem
    · exact ⟨rfl, rfl, i, rfl⟩
    · exact ih (i + 1) c hmem

theorem markConversions_length (delays : ℕ → ℕ) :
    ∀ (l : List ProcessedClick) (n i : ℕ),
      (markConversions delays i n l).length = l.length := by
  intro l
  induction l with
  | nil => intro n i; cases n <;> rfl
  | cons click rest ih =>
    intro n i
    cases n with
    | zero => rfl
    | succ m => simp [markConversions, ih]

theorem markConversions_map_ip (delays : ℕ → ℕ) :
    ∀ (l : List ProcessedClick) (n i : ℕ),
      (markConversions delays i n l).map (fun c => c.ip_address) =
        l.map fun c => c.ip_address := by
  intro l
  induction l with
  | nil => intro n i; cases n <;> rfl
  | cons click rest ih =>
    intro n i
    cases n with
    | zero => rfl
    | succ m => simp [markConversions, ih]

theorem markConversions_countP (delays : ℕ → ℕ) :
    ∀ (l : List ProcessedClick) (n i : ℕ), n ≤ l.length →
      (∀ c ∈ l, c.to_convert = false) →
      (markConversions delays i n l).countP (fun c => c.to_convert) = n := by
  intro l
  induction l with
  | nil =>
    intro n i hn _
    cases n with
    | zero => rfl
    | succ m => exact absurd hn (by simp)
  | cons click rest ih =>
    intro n i hn hall
    cases n with
    | zero =>
      simp only [markConversions]
      rw [List.countP_eq_zero]
      intro c hc
      simp [hall c hc]
    | succ m =>
      have hm : m ≤ rest.length := by simp at hn; omega
      rw [markConversions, List.countP_cons_of_pos _ _ (by simp)]
      rw [ih m (i + 1) hm (fun c hc => hall c (List.mem_cons_of_mem _ hc))]

theorem markConversions_mem (delays : ℕ → ℕ) :
    ∀ (l : List ProcessedClick) (n i : ℕ) (c : ProcessedClick),
      c ∈ markConversions delays i n l →
        ∃ c0 ∈ l, c.to_process = c0.to_process ∧
          c.to_process_datetime = c0.to_process_datetime := by
  intro l
  induction l with
  | nil => intro n i c h; cases n <;> simp [markConversions] at h
  | cons click rest ih =>
    intro n i c h
    cases n with
    | zero =>
      rw [markConversions] at h
      exact ⟨c, h, rfl, rfl⟩
    | succ m =>
      rw [markConversions] at h
      rcases List.mem_cons.mp h with rfl | hmem
      · exact ⟨click, List.mem_cons_self _ _, rfl, rfl⟩
      · obtain ⟨c0, hc0, hp, hd⟩ := ih m (i + 1) c hmem
        exact ⟨c0, List.mem_cons_of_mem _ hc0, hp, hd⟩

/-- C1: with any shuffle that permutes its input and a conversion ratio
between 0 and 100 percent, process_clicks succeeds, builds at most
daily_clicks_needed div 24 events (exactly the first that many filtered
candidates, in input order, the rest discarded), and marks exactly
floor(selected_count * ratio / 100) of them for stage 2. -/
theorem process_clicks_quota_and_conversion_count
    (now : ℤ) (sub1s sub2s : ℕ → String) (procSecs : ℕ → ℕ)
    (shuffle : List ProcessedClick → List ProcessedClick) (delays : ℕ → ℕ)
    (filtered_clicks : List RawClick) (daily_clicks_needed : ℕ) (affiliate : Affiliate)
    (conversion_ratio_runtime : ℚ)
    (hshuffle : ∀ l, (shuffle l).Perm l)
    (h0 : 0 ≤ conversion_ratio_runtime) (h100 : conversion_ratio_runtime ≤ 100) :
    ∃ out, process_clicks now sub1s sub2s procSecs shuffle delays filtered_clicks
        daily_clicks_needed affiliate conversion_ratio_runtime = some out ∧
      out.length ≤ daily_clicks_needed / 24 ∧
      out.length = min (daily_clicks_needed / 24) filtered_clicks.length ∧
      ((out.map fun c => c.ip_address).Perm
        ((filtered_clicks.take (daily_clicks_needed / 24)).map fun c => c.user_ip)) ∧
      out.countP (fun c => c.to_convert) =
        (⌊(out.length : ℚ) * (conversion_ratio_runtime / 100)⌋).toNat := by
  simp only [process_clicks, hourly_clicks_needed]
  set L := filtered_clicks.take (daily_clicks_needed / 24) with hLdef
  set P := buildClicks affiliate now sub1s sub2s procSecs 0 L with hPdef
  have hPlen : P.length = L.length := buildClicks_length affiliate now sub1s sub2s procSecs L 0
  have hperm : (shuffle P).Perm P := hshuffle P
  have hslen : (shuffle P).length = P.length := hperm.length_eq
  have hx_nonneg : (0 : ℚ) ≤ (P.length : ℚ) * (conversion_ratio_runtime / 100) :=
    mul_nonneg (Nat.cast_nonneg _) (div_nonneg h0 (by norm_num))
  have hcn : conversions_needed_count P.length conversion_ratio_runtime =
      ⌊(P.length : ℚ) * (conversion_ratio_runtime / 100)⌋ := by
    simp only [conversions_needed_count, truncToZero]
    rw [if_pos hx_nonneg]
  have hfle : ⌊(P.length : ℚ) * (conversion_ratio_runtime / 100)⌋ ≤ (P.length : ℤ) := by
    calc ⌊(P.length : ℚ) * (conversion_ratio_runtime / 100)⌋
        ≤ ⌊((P.length : ℚ))⌋ :=
          Int.floor_le_floor
            (mul_le_of_le_one_right (Nat.cast_nonneg _) ((div_le_one (by norm_num)).mpr h100))
      _ = (P.length : ℤ) := Int.floor_natCast _
  have hNle : (conversions_needed_count P.length conversion_ratio_runtime).toNat ≤
      (shuffle P).length := by
    rw [hcn, hslen]
    exact Int.toNat_le.mpr (by exact_mod_cast hfle)
  rw [if_pos hNle]
  have hout_len :
      (markConversions delays 0
        (conversions_needed_count P.length conversion_ratio_runtime).toNat
        (shuffle P)).length = L.length := by
    rw [markConversions_length, hslen, hPlen]
  have hfalse : ∀ c ∈ shuffle P, c.to_convert = false := fun c hc =>
    (buildClicks_mem affiliate now sub1s sub2s procSecs L 0 c (hperm.subset hc)).2.1
  have hcount :
      (markConversions delays 0
        (conversions_needed_count P.length conversion_ratio_runtime).toNat
        (shuffle P)).countP (fun c => c.to_convert) =
      (conversions_needed_count P.length conversion_ratio_runtime).toNat :=
    markConversions_countP delays (shuffle P) _ 0 hNle hfalse
  refine ⟨_, rfl, ?_, ?_, ?_, ?_⟩
  · rw [hout_len, hLdef, List.length_take]
    exact min_le_left _ _
  · rw [hout_len, hLdef, List.length_take]
  · rw [markConversions_map_ip, ← buildClicks_map_ip affiliate now sub1s sub2s procSecs L 0]
    exact hperm.map _
  · rw [hcount, hout_len, hcn, hPlen]

/-- Witness for C1: two filtered candidates, a daily need of 48 (hourly
quota 2), ratio 50 percent, identity shuffle. -/
theorem process_clicks_quota_and_conversion_count_witness :
    ∃ out, process_clicks 0 (fun _ => "s1") (fun _ => "s2") (fun _ => 0) id (fun _ => 30)
        [exRawClick, exRawClick2] 48 exAffiliate 50 = some out ∧
      out.length ≤ 48 / 24 ∧
      out.length = min (48 / 24) [exRawClick, exRawClick2].length ∧
      ((out.map fun c => c.ip_address).Perm
        (([exRawClick, exRawClick2].take (48 / 24)).map fun c => c.user_ip)) ∧
      out.countP (fun c => c.to_convert) = (⌊(out.length : ℚ) * (50 / 100)⌋).toNat :=
  process_clicks_quota_and_conversion_count 0 (fun _ => "s1") (fun _ => "s2") (fun _ => 0)
    id (fun _ => 30) [exRawClick, exRawClick2] 48 exAffiliate 50
    (fun l => List.Perm.refl l) (by decide) (by decide)

/-- C9 (amended): every event built by process_clicks has its stage-1 flag
set and a scheduled time in the closed interval from now to now plus 3600
seconds; randint(0, 3600) is inclusive at both ends, so now + 3600 itself
is attainable. -/
theorem process_clicks_stage1_schedule_range
    (now : ℤ) (sub1s sub2s : ℕ → String) (procSecs : ℕ → ℕ)
    (shuffle : List ProcessedClick → List ProcessedClick) (delays : ℕ → ℕ)
    (filtered_clicks : List RawClick) (daily_clicks_needed : ℕ) (affiliate : Affiliate)
    (conversion_ratio_runtime : ℚ)
    (hshuffle : ∀ l, (shuffle l).Perm l)
    (hsecs : ∀ i, procSecs i ≤ 3600)
    (out : List ProcessedClick)
    (hout : process_clicks now sub1s sub2s procSecs shuffle delays filtered_clicks
      daily_clicks_needed affiliate conversion_ratio_runtime = some out) :
    ∀ c ∈ out, c.to_process = true ∧ now ≤ c.to_process_datetime ∧
      c.to_process_datetime ≤ now + 3600 := by
  intro c hc
  simp only [process_clicks, hourly_clicks_needed] at hout
  set L := filtered_clicks.take (daily_clicks_needed / 24) with hLdef
  set P := buildClicks affiliate now sub1s sub2s procSecs 0 L with hPdef
  split at hout
  · have hout2 := Option.some.inj hout
    subst hout2
    obtain ⟨c0, hc0, hp, hd⟩ := markConversions_mem _ _ _ _ c hc
    have hmem : c0 ∈ P := (hshuffle P).subset hc0
    obtain ⟨hproc, _, j, hdt⟩ := buildClicks_mem affiliate now sub1s sub2s procSecs L 0 c0 hmem
    refine ⟨hp.trans hproc, ?_, ?_⟩
    · rw [hd, hdt]
      exact le_add_of_nonneg_right (Int.ofNat_nonneg _)
    · rw [hd, hdt]
      have : (procSecs j : ℤ) ≤ 3600 := by exact_mod_cast hsecs j
      omega
  · exact absurd hout (by simp)

/-- Witness for C9: a single candidate with the scheduling draw 1800. -/
theorem process_clicks_stage1_schedule_range_witness :
    (buildClick exAffiliate 0 "s1" "s2" 1800 exRawClick).to_process = true ∧
    (0 : ℤ) ≤ (buildClick exAffiliate 0 "s1" "s2" 1800 exRawClick).to_process_datetime ∧
    (buildClick exAffiliate 0 "s1" "s2" 1800 exRawClick).to_process_datetime ≤ 0 + 3600 :=
  process_clicks_stage1_schedule_range 0 (fun _ => "s1") (fun _ => "s2") (fun _ => 1800)
    id (fun _ => 30) [exRawClick] 24 exAffiliate 0 (fun l => List.Perm.refl l)
    (fun _ => of_decide_eq_true rfl) [buildClick exAffiliate 0 "s1" "s2" 1800 exRawClick]
    (by with_unfolding_all decide)
    (buildClick exAffiliate 0 "s1" "s2" 1800 exRawClick) (by decide)

/-- Counterexample to C9 as stated: the draw 3600 is a legal result of
randint(0, 3600), and it schedules the event at exactly now + 3600, which
is not strictly less than now plus one hour. -/
theorem stage1_schedule_upper_bound_cex :
    process_clicks 0 (fun _ => "s1") (fun _ => "s2") (fun _ => 3600) id (fun _ => 30)
        [exRawClick] 24 exAffiliate 0 =
      some [buildClick exAffiliate 0 "s1" "s2" 3600 exRawClick] ∧
    (buildClick exAffiliate 0 "s1" "s2" 3600 exRawClick).to_process_datetime = 0 + 3600 ∧
    ¬ (buildClick exAffiliate 0 "s1" "s2" 3600 exRawClick).to_process_datetime < 0 + 3600 ∧
    (3600 : ℕ) ≤ 3600 := by
  refine ⟨?_, by simp [buildClick], by simp [buildClick], by simp⟩
  norm_num [process_clicks, hourly_clicks_needed, conversions_needed_count, truncToZero,
    buildClicks, markConversions]

/-! ## Claim theorems: LifecycleDispatcher stage 1 -/

/-- C2 (amended): when the endpoint call for an event raises, post_click
catches the failure and returns the empty string, and process_ready_clicks
still marks that event stage-1-complete with an empty correlation string;
the failure does not abort the batch: the remaining events are processed
exactly as they would be on their own, and every row of the batch is
traversed.  An event stays incomplete only when its own save raises. -/
theorem process_ready_clicks_failure_behavior (now : ℤ) (click : ClickRow)
    (message : String) (rest batch : List (ClickRow × EndpointResult × Bool)) :
    process_ready_clicks now ((click, EndpointResult.callFailure message, true) :: rest) =
      ({ click with
          transaction_id := ""
          is_processed := true
          is_processed_datetime := some now } :: (process_ready_clicks now rest).1,
        1 + (process_ready_clicks now rest).2) ∧
    process_ready_clicks now ((click, EndpointResult.callFailure message, false) :: rest) =
      (click :: (process_ready_clicks now rest).1, 0 + (process_ready_clicks now rest).2) ∧
    (process_ready_clicks now batch).1.length = batch.length := by
  refine ⟨by simp [process_ready_clicks, post_click], by simp [process_ready_clicks], ?_⟩
  induction batch with
  | nil => rfl
  | cons entry rest2 ih =>
    obtain ⟨c, r, s⟩ := entry
    simp [process_ready_clicks, ih]

/-- Counterexample to C2 as stated: a ready click whose endpoint call
raises ends the poll with is_processed set to true (and an empty
transaction id), so it is not left incomplete for a future poll. -/
theorem endpoint_failure_marked_complete_cex :
    ((process_ready_clicks 0 [(exClickRow, EndpointResult.callFailure "timeout", true)]).1.map
      fun c => c.is_processed) = [true] ∧
    ((process_ready_clicks 0 [(exClickRow, EndpointResult.callFailure "timeout", true)]).1.map
      fun c => c.transaction_id) = [""] ∧
    exClickRow.is_processed = false := by
  refine ⟨by decide, by decide, by decide⟩

/-! ## Claim theorems: RunDeduplicator -/

/-- C8 (amended): only the click_processor and conversion_processor entry
points run the 20-second duplicate check and skip the invocation (creating
no RunRecord) when a same-name RunRecord started inside the window;
click_generator creates its RunRecord unconditionally, with no check. -/
theorem task_entry_dedup_behavior (now : ℤ) (jobs : List Job) (affiliate_id : String) :
    (should_skip_job now jobs "click_processor" 20 = true →
      click_processor_entry now jobs = jobs) ∧
    (should_skip_job now jobs "click_processor" 20 = false →
      click_processor_entry now jobs =
        jobs ++ [{ task_name := "click_processor", status := "running", started_at := now }]) ∧
    (should_skip_job now jobs "conversion_processor" 20 = true →
      conversion_processor_entry now jobs = jobs) ∧
    (should_skip_job now jobs "conversion_processor" 20 = false →
      conversion_processor_entry now jobs =
        jobs ++ [{ task_name := "conversion_processor", status := "running",
                   started_at := now }]) ∧
    click_generator_entry now jobs affiliate_id =
      jobs ++ [{ task_name := "click_generator_" ++ affiliate_id, status := "running",
                 started_at := now }] := by
  refine ⟨?_, ?_, ?_, ?_, rfl⟩ <;> intro h <;>
    simp [click_processor_entry, conversion_processor_entry, h]

/-- Witness for C8: with a click_processor RunRecord started 10 seconds
ago, click_processor skips while conversion_processor and click_generator
both create records. -/
theorem task_entry_dedup_behavior_witness :
    click_processor_entry 110 exJobsCP = exJobsCP ∧
    conversion_processor_entry 110 exJobsCP =
      exJobsCP ++ [{ task_name := "conversion_processor", status := "running",
                     started_at := 110 }] ∧
    click_generator_entry 110 exJobsCP "A1" =
      exJobsCP ++ [{ task_name := "click_generator_A1", status := "running",
                     started_at := 110 }] :=
  ⟨(task_entry_dedup_behavior 110 exJobsCP "A1").1 (by decide),
   (task_entry_dedup_behavior 110 exJobsCP "A1").2.2.2.1 (by decide),
   (task_entry_dedup_behavior 110 exJobsCP "A1").2.2.2.2⟩

/-- Counterexample to C8 as stated: a click_generator RunRecord of the
same task name started 10 seconds earlier is inside the 20-second window
(should_skip_job reports a duplicate), yet the click_generator entry
creates a second RunRecord anyway, so two same-name RunRecords exist
inside the window. -/
theorem click_generator_no_dedup_cex :
    should_skip_job 110 exJobs "click_generator_A1" 20 = true ∧
    click_generator_entry 110 exJobs "A1" =
      exJobs ++ [{ task_name := "click_generator_A1", status := "running",
                   started_at := 110 }] ∧
    ((click_generator_entry 110 exJobs "A1").filter
      fun j => j.task_name == "click_generator_A1").length = 2 := by
  refine ⟨by decide, by decide, by decide⟩

end LuckySeven
